import Mathlib

/-!
Shallow embedding of the invoice issuance core of the `atechloapisunat`
backend (an Express + Sequelize service).

Embedded source functions:
* `createInvoice`  — handlers/invoices.js (src/unnamed/part_010, lines 206-375)
* `getNextNumber`  — handlers/notifications.js, lines 721-783
* model metadata   — models (src/unnamed/part_000 DocumentSequence,
  src/unnamed/part_001 Invoice, models/InvoiceItem.js, models/Product.js)

Modelling conventions:
* Monetary values and JS numbers are modelled as exact rationals `ℚ`.
  The JS code performs only `parseFloat`, `*`, `-`, `+`, `/` on them and
  applies no rounding of its own, so the rational semantics matches the
  ideal-number reading of the arithmetic in the source.
* Nullable / optional JS values are `Option`; the JS truthiness idiom
  `x || d` on numbers is `jsOr` below (null, undefined and 0 are falsy).
* The Sequelize transaction of `createInvoice` is modelled by returning
  the original database state on every failure path (the source calls
  `transaction.rollback()` on each of them) and the fully updated state
  at the single commit point.  `getNextNumber` runs outside any
  transaction in the source, so its row update is applied directly to
  the durable state.
* Persistence steps that can raise in the source (`Invoice.create`,
  `InvoiceItem.create`, `sequence.update`) are given injectable faults
  through the `Faults` record; the duplicate-key error of the unique
  index `(company_id, invoice_number)` of the invoices table is raised
  deterministically.  Any raised error lands in the source's `catch`
  block, which rolls the transaction back and answers HTTP 500.
-/

/-- One row of the `user_companies` table (models/UserCompany.js):
membership of a user in a company together with the member's role. -/
structure UserCompany where
  user_id : Nat
  company_id : Nat
  role : String
deriving Repr, DecidableEq

/-- One row of the `customers` table (models/Customer.js); only identity
and tenant ownership matter for the issuance claims. -/
structure Customer where
  id : Nat
  company_id : Nat
  name : String
deriving Repr, DecidableEq

/-- One row of the `products` table (models/Product.js).  `igv_rate` is a
nullable DECIMAL(5,2) column with default 18.00; `none` models SQL NULL /
JS `undefined`. -/
structure Product where
  id : Nat
  company_id : Nat
  name : String
  igv_rate : Option ℚ
deriving Repr, DecidableEq

/-- One row of the `document_sequences` table (src/unnamed/part_000).
The source columns `prefix` and `suffix` are named `pre` and `suf` here
because `prefix` is a Lean keyword. -/
structure DocumentSequence where
  id : Nat
  company_id : Nat
  document_type : String
  series : String
  current_number : Nat
  pre : String
  suf : String
  min_digits : Nat
  is_active : Bool
deriving Repr, DecidableEq

/-- One row of the `invoices` table (src/unnamed/part_001), restricted to
the columns written by `createInvoice`. -/
structure Invoice where
  id : Nat
  company_id : Nat
  customer_id : Nat
  invoice_number : String
  series : String
  correlative : Nat
  document_type : String
  currency : String
  exchange_rate : ℚ
  issue_date : Option String
  due_date : Option String
  subtotal : ℚ
  tax_amount : ℚ
  discount_amount : ℚ
  total_amount : ℚ
  status : String
  notes : Option String
  created_by : Nat
deriving Repr, DecidableEq

/-- One row of the `invoice_items` table (models/InvoiceItem.js). -/
structure InvoiceItem where
  invoice_id : Nat
  product_id : Nat
  quantity : ℚ
  unit_price : ℚ
  discount_rate : ℚ
  tax_rate : ℚ
  subtotal : ℚ
  tax_amount : ℚ
  total_amount : ℚ
deriving Repr, DecidableEq

/-- The database state visible to the issuance and sequence handlers.
`nextInvoiceId` models the AUTO_INCREMENT primary key of `invoices`. -/
structure DBState where
  userCompanies : List UserCompany
  customers : List Customer
  products : List Product
  sequences : List DocumentSequence
  invoices : List Invoice
  invoiceItems : List InvoiceItem
  nextInvoiceId : Nat
deriving Repr, DecidableEq

/-- One element of the request body's `items` array.  `discount_rate` is
optional in the source (`item.discount_rate || 0`). -/
structure ItemRequest where
  product_id : Nat
  quantity : ℚ
  unit_price : ℚ
  discount_rate : Option ℚ
deriving Repr, DecidableEq

/-- The request of POST /companies/:companyId/invoices, after transport
decoding: route params, authenticated user and JSON body.  A `customer_id`
of 0 models a missing / falsy customer id (the source checks
`!customer_id`), empty strings model missing string fields. -/
structure CreateInvoiceRequest where
  userId : Nat
  companyId : Nat
  customer_id : Nat
  document_type : String
  series : String
  currency : Option String
  exchange_rate : Option ℚ
  issue_date : Option String
  due_date : Option String
  notes : Option String
  items : List ItemRequest
deriving Repr, DecidableEq

/-- Injectable storage faults for the three persistence steps of
`createInvoice` that can raise in the source. -/
structure Faults where
  invoiceInsert : Bool
  itemInsert : Bool
  sequenceUpdate : Bool
deriving Repr, DecidableEq

/-- A fault-free storage run. -/
def noFaults : Faults := ⟨false, false, false⟩

/-- Outcome of `createInvoice`, following the source's response branches:
403 (no authorized role), 400 missing fields, 400 no active sequence,
400 unknown product, 500 from the catch-all, and 201 with the created
header and lines. -/
inductive CIResult where
  | forbidden
  | validationFailed
  | noActiveSequence
  | productMissing (product_id : Nat)
  | internalError
  | created (inv : Invoice) (lines : List InvoiceItem)
deriving Repr, DecidableEq

/-- Whether a result is the 201 success branch. -/
def CIResult.isCreated : CIResult → Bool
  | .created _ _ => true
  | _ => false

/-- Invoice number of a success result (dummy value otherwise). -/
def CIResult.createdNumber : CIResult → String
  | .created inv _ => inv.invoice_number
  | _ => ""

/-- Correlative of a success result (dummy value otherwise). -/
def CIResult.createdCorrelative : CIResult → Nat
  | .created inv _ => inv.correlative
  | _ => 0

/-- Header subtotal of a success result (dummy value otherwise). -/
def CIResult.createdSubtotal : CIResult → ℚ
  | .created inv _ => inv.subtotal
  | _ => 0

/-- Header tax amount of a success result (dummy value otherwise). -/
def CIResult.createdTax : CIResult → ℚ
  | .created inv _ => inv.tax_amount
  | _ => 0

/-- Header total amount of a success result (dummy value otherwise). -/
def CIResult.createdTotal : CIResult → ℚ
  | .created inv _ => inv.total_amount
  | _ => 0

/-- Created lines of a success result (empty otherwise). -/
def CIResult.createdLines : CIResult → List InvoiceItem
  | .created _ lines => lines
  | _ => []

/-- JS `v || d` on a nullable number: `null`, `undefined` and `0` are
falsy and select the default. -/
def jsOr (v : Option ℚ) (d : ℚ) : ℚ :=
  match v with
  | none => d
  | some x => if x = 0 then d else x

/-- JS `String.prototype.padStart(width, "0")`: left-pad with zeros up to
`width`; strings already at least `width` long are returned unchanged. -/
def padStart (s : String) (width : Nat) : String :=
  String.mk (List.replicate (width - s.length) '0') ++ s

/-- The formatted document number
`prefix + series + "-" + String(n).padStart(min_digits, "0") + suffix`
(handlers/invoices.js line 260, handlers/notifications.js lines 760-761). -/
def formatNumber (pre series : String) (n : Nat) (digits : Nat) (suf : String) : String :=
  pre ++ series ++ "-" ++ padStart (toString n) digits ++ suf

/-- Roles accepted by `createInvoice`'s permission query
(handlers/invoices.js line 219). -/
def allowedRoles : List String := ["owner", "admin", "accountant", "sales"]

/-- Predicate of the `UserCompany.findOne` permission query of
`createInvoice`: membership in the company with one of the allowed roles. -/
def roleMatch (userId companyId : Nat) (uc : UserCompany) : Bool :=
  uc.user_id == userId && uc.company_id == companyId && allowedRoles.contains uc.role

/-- Predicate of the membership query of `getNextNumber`
(handlers/notifications.js lines 727-729): any role qualifies. -/
def memberMatch (userId companyId : Nat) (uc : UserCompany) : Bool :=
  uc.user_id == userId && uc.company_id == companyId

/-- Predicate of the `DocumentSequence.findOne` query shared by
`createInvoice` (lines 241-249) and `getNextNumber` (lines 739-746):
the key columns plus `is_active: true`.  An inactive sequence is simply
not found by this query. -/
def seqMatch (companyId : Nat) (document_type series : String) (s : DocumentSequence) : Bool :=
  s.company_id == companyId && s.document_type == document_type &&
    s.series == series && s.is_active

/-- The field-presence validation of `createInvoice` (line 232):
`!customer_id || !document_type || !series || !issue_date || !items ||
items.length === 0`.  No quantity, price or rate is inspected here. -/
def hasMissingFields (req : CreateInvoiceRequest) : Bool :=
  req.customer_id == 0 || req.document_type == "" || req.series == "" ||
    req.issue_date.isNone || req.items.isEmpty

/-- The per-line arithmetic of `createInvoice` (lines 279-299), verbatim:
no rounding is applied anywhere.  `discount_rate` defaults through
`item.discount_rate || 0` and the tax rate snapshots
`parseFloat(product.igv_rate || 18)`. -/
def processItem (product : Product) (item : ItemRequest) : InvoiceItem :=
  let quantity := item.quantity
  let unit_price := item.unit_price
  let discount_rate := jsOr item.discount_rate 0
  let tax_rate := jsOr product.igv_rate 18
  let item_subtotal := quantity * unit_price
  let item_discount := item_subtotal * (discount_rate / 100)
  let item_base := item_subtotal - item_discount
  let item_tax := item_base * (tax_rate / 100)
  let item_total := item_base + item_tax
  { invoice_id := 0
    product_id := item.product_id
    quantity := quantity
    unit_price := unit_price
    discount_rate := discount_rate
    tax_rate := tax_rate
    subtotal := item_base
    tax_amount := item_tax
    total_amount := item_total }

/-- The item loop of `createInvoice` (lines 269-304): each product is
resolved with `Product.findByPk(item.product_id)` — by primary key only,
with no company filter — and the first missing product aborts the loop. -/
def processItems (products : List Product) : List ItemRequest → Except Nat (List InvoiceItem)
  | [] => .ok []
  | item :: rest =>
    match products.find? (fun p => p.id == item.product_id) with
    | none => .error item.product_id
    | some product =>
      match processItems products rest with
      | .error e => .error e
      | .ok ps => .ok (processItem product item :: ps)

/-- Whether the item loop succeeds (all products found by primary key). -/
def processOk (products : List Product) (items : List ItemRequest) : Bool :=
  match processItems products items with
  | .ok _ => true
  | .error _ => false

/-- The discount accumulated for one processed line
(`item_discount = item_subtotal * (discount_rate / 100)`, line 285),
recomputed from the stored line columns; the recomputation is exact. -/
def lineDiscount (li : InvoiceItem) : ℚ :=
  li.quantity * li.unit_price * (li.discount_rate / 100)

/-- The duplicate-key guard of the `invoices` table: its unique index
`unique_company_number` is on `(company_id, invoice_number)`
(src/unnamed/part_001 lines 108-113).  `Invoice.create` raises
`SequelizeUniqueConstraintError` exactly when a committed row clashes. -/
def dupNumberClash (invoices : List Invoice) (companyId : Nat) (number : String) : Bool :=
  invoices.any (fun j => j.company_id == companyId && j.invoice_number == number)

/-- The invoice header built by `Invoice.create` (lines 309-326) for a
given AUTO_INCREMENT id, request, found sequence and processed lines. -/
def issuedInvoice (nextId : Nat) (req : CreateInvoiceRequest)
    (seq : DocumentSequence) (ps : List InvoiceItem) : Invoice :=
  { id := nextId
    company_id := req.companyId
    customer_id := req.customer_id
    invoice_number :=
      formatNumber seq.pre req.series (seq.current_number + 1) seq.min_digits seq.suf
    series := req.series
    correlative := seq.current_number + 1
    document_type := req.document_type
    currency := req.currency.getD "PEN"
    exchange_rate := req.exchange_rate.getD 1
    issue_date := req.issue_date
    due_date := req.due_date
    subtotal := (ps.map (·.subtotal)).sum
    tax_amount := (ps.map (·.tax_amount)).sum
    discount_amount := (ps.map lineDiscount).sum
    total_amount := (ps.map (·.subtotal)).sum + (ps.map (·.tax_amount)).sum
    status := "draft"
    notes := req.notes
    created_by := req.userId }

/-- The `invoice_items` rows inserted by the loop at lines 329-334: the
processed lines pointing at the new header. -/
def issuedLines (invId : Nat) (ps : List InvoiceItem) : List InvoiceItem :=
  ps.map (fun li => { li with invoice_id := invId })

/-- The database state at the commit point (line 339): the new header,
its lines, and the sequence row advanced to the allocated correlative
(`sequence.update({ current_number: correlative })`, line 337). -/
def issuedState (st : DBState) (req : CreateInvoiceRequest)
    (seq : DocumentSequence) (ps : List InvoiceItem) : DBState :=
  { st with
    invoices := issuedInvoice st.nextInvoiceId req seq ps :: st.invoices
    invoiceItems := st.invoiceItems ++ issuedLines st.nextInvoiceId ps
    sequences := st.sequences.map (fun s =>
      if s.id == seq.id then { s with current_number := seq.current_number + 1 } else s)
    nextInvoiceId := st.nextInvoiceId + 1 }

/-- The POST /companies/:companyId/invoices handler `createInvoice`
(handlers/invoices.js lines 206-375) as a state transformer.  Every
failure path returns the initial state (the source rolls the transaction
back there); the success path applies the header insert, the line
inserts and the sequence update atomically (the source commits). -/
def createInvoice (st : DBState) (req : CreateInvoiceRequest) (f : Faults) :
    CIResult × DBState :=
  match st.userCompanies.find? (roleMatch req.userId req.companyId) with
  | none => (.forbidden, st)
  | some _ =>
    if hasMissingFields req then (.validationFailed, st)
    else
      match st.sequences.find? (seqMatch req.companyId req.document_type req.series) with
      | none => (.noActiveSequence, st)
      | some seq =>
        match processItems st.products req.items with
        | .error pid => (.productMissing pid, st)
        | .ok ps =>
          if f.invoiceInsert then (.internalError, st)
          else if dupNumberClash st.invoices req.companyId
              (formatNumber seq.pre req.series (seq.current_number + 1)
                seq.min_digits seq.suf) then
            (.internalError, st)
          else if f.itemInsert then (.internalError, st)
          else if f.sequenceUpdate then (.internalError, st)
          else
            (.created (issuedInvoice st.nextInvoiceId req seq ps)
                (issuedLines st.nextInvoiceId ps),
              issuedState st req seq ps)

/-- Outcome of `getNextNumber`: 403, 404, or 200 with the allocated
number and its formatted form. -/
inductive GNResult where
  | forbidden
  | notFound
  | ok (next_number : Nat) (formatted_number : String)
deriving Repr, DecidableEq

/-- The POST /companies/:companyId/sequences/next handler `getNextNumber`
(handlers/notifications.js lines 721-783).  It runs without any
transaction: the `sequence.update` is applied directly to the durable
state and there is no rollback point.  Membership of any role passes the
permission check, and no invoice or line is touched. -/
def getNextNumber (st : DBState) (userId companyId : Nat)
    (document_type series : String) : GNResult × DBState :=
  match st.userCompanies.find? (memberMatch userId companyId) with
  | none => (.forbidden, st)
  | some _ =>
    match st.sequences.find? (seqMatch companyId document_type series) with
    | none => (.notFound, st)
    | some seq =>
      let nextNumber := seq.current_number + 1
      let formatted := formatNumber seq.pre seq.series nextNumber seq.min_digits seq.suf
      (.ok nextNumber formatted,
        { st with
          sequences := st.sequences.map (fun s =>
            if s.id == seq.id then { s with current_number := nextNumber } else s) })

/-- Modelled from the spec (section 4.2): the rounding rule the spec
prescribes, round-half-up at 2 decimal places.  The issuance code is
compared against this definition; it is not part of the source. -/
def round2 (x : ℚ) : ℚ :=
  (⌊x * 100 + 1 / 2⌋ : ℚ) / 100

/-- Checker for the only unique constraint of the `invoices` table:
no two rows share `(company_id, invoice_number)`. -/
def noDupCompanyNumber : List Invoice → Bool
  | [] => true
  | i :: rest =>
    !(dupNumberClash rest i.company_id i.invoice_number) && noDupCompanyNumber rest

/-- One index declaration of a Sequelize model definition. -/
structure IndexDef where
  unique : Bool
  fields : List String
deriving Repr, DecidableEq

/-- The index list of the `invoices` table, transcribed from
src/unnamed/part_001 lines 108-120. -/
def invoicesTableIndexes : List IndexDef :=
  [⟨true, ["company_id", "invoice_number"]⟩,
   ⟨false, ["company_id", "issue_date"]⟩,
   ⟨false, ["sunat_status"]⟩]

/-- The index list of the `document_sequences` table, transcribed from
src/unnamed/part_000 lines 49-55. -/
def sequencesTableIndexes : List IndexDef :=
  [⟨true, ["company_id", "document_type", "series"]⟩]

/-!
Concurrency model for sequence allocation.

`createInvoice` reads the sequence row with a plain
`DocumentSequence.findOne({ where: ..., transaction })` (lines 241-249):
no `lock:` option and no compare-and-swap, so under InnoDB this is a
non-locking consistent read that never blocks or is blocked by another
transaction's identical read.  All effects of one issuance transaction
(the header insert — which enforces the unique
`(company_id, invoice_number)` index —, the line inserts and the
`current_number` update) become visible atomically at its commit
(line 339), and a duplicate-key error makes the transaction abort by
rollback (lines 367-374).

The model below captures exactly those allocation-relevant steps for any
set of transactions contending on one sequence row with fixed formatting
parameters (so equal correlatives give equal invoice numbers):

* `.readSeq t`  — transaction `t` performs the non-locking read and
  remembers the committed `current_number` it observed;
* `.commitTx t` — transaction `t` attempts to commit: it inserts an
  invoice with correlative `observed + 1` and advances the counter, or
  aborts if a committed invoice already carries that number.
-/

/-- Phase of one issuance transaction in the allocation model. -/
inductive TxPhase where
  | ready
  | readDone (observed : Nat)
  | committed (correlative : Nat)
  | aborted
deriving Repr, DecidableEq

/-- Shared state: the committed counter value, the correlatives of the
committed invoices, and each transaction's phase. -/
structure AllocState (T : Type) where
  currentNumber : Nat
  committedCorrelatives : List Nat
  phase : T → TxPhase

/-- Events: a transaction's sequence read, or its commit attempt. -/
inductive AllocEvent (T : Type) where
  | readSeq (t : T)
  | commitTx (t : T)

/-- One step of the allocation model (events that do not fit the
transaction's phase are ignored). -/
def allocStep [DecidableEq T] (s : AllocState T) : AllocEvent T → AllocState T
  | .readSeq t =>
    match s.phase t with
    | .ready =>
      { s with phase := fun u => if u = t then .readDone s.currentNumber else s.phase u }
    | _ => s
  | .commitTx t =>
    match s.phase t with
    | .readDone v =>
      if v + 1 ∈ s.committedCorrelatives then
        { s with phase := fun u => if u = t then .aborted else s.phase u }
      else
        { currentNumber := v + 1
          committedCorrelatives := (v + 1) :: s.committedCorrelatives
          phase := fun u => if u = t then .committed (v + 1) else s.phase u }
    | _ => s

/-- Run a schedule of interleaved events. -/
def allocRun [DecidableEq T] (s : AllocState T) (es : List (AllocEvent T)) : AllocState T :=
  es.foldl allocStep s

/-- The initial state: counter at `n0`, nothing committed, every
transaction about to run. -/
def allocInit (T : Type) (n0 : Nat) : AllocState T :=
  { currentNumber := n0, committedCorrelatives := [], phase := fun _ => .ready }

/-- The descending list `[n0 + k, ..., n0 + 2, n0 + 1]`: the gapless
range of correlatives above `n0`. -/
def descFrom (n0 : Nat) : Nat → List Nat
  | 0 => []
  | k + 1 => (n0 + k + 1) :: descFrom n0 k

/-- Invariant of the allocation model when started at counter `n0`:
the counter never went below `n0`, the committed correlatives are
exactly the gapless range above `n0`, and every pending observation is a
counter value from the past. -/
def AllocInv (n0 : Nat) {T : Type} (s : AllocState T) : Prop :=
  n0 ≤ s.currentNumber ∧
  s.committedCorrelatives = descFrom n0 (s.currentNumber - n0) ∧
  ∀ t v, s.phase t = .readDone v → n0 ≤ v ∧ v ≤ s.currentNumber

/-!
Concrete fixtures used by witnesses and counterexamples.
-/

/-- A company-1 member with the `owner` role. -/
def ucOwner : UserCompany := ⟨1, 1, "owner"⟩

/-- A company-1 member whose role is outside `createInvoice`'s allowed
list (but `getNextNumber` accepts any member). -/
def ucViewer : UserCompany := ⟨7, 1, "viewer"⟩

/-- A company-1 product with the standard 18% IGV rate. -/
def prodStd : Product := ⟨1, 1, "Standard", some 18⟩

/-- A company-1 product whose `igv_rate` is the number 0 (tax exempt). -/
def prodZeroRate : Product := ⟨2, 1, "Exempt", some 0⟩

/-- A product that belongs to company 2, not company 1. -/
def prodForeign : Product := ⟨3, 2, "Foreign", some 18⟩

/-- The spec's example sequence: series F001, empty affixes, 8 digits,
fresh counter, active. -/
def seqF001 : DocumentSequence := ⟨1, 1, "invoice", "F001", 0, "", "", 8, true⟩

/-- The same series with the counter already at 7. -/
def seqF001at7 : DocumentSequence := ⟨1, 1, "invoice", "F001", 7, "", "", 8, true⟩

/-- The same series, deactivated, counter at 7. -/
def seqInactive : DocumentSequence := ⟨1, 1, "invoice", "F001", 7, "", "", 8, false⟩

/-- A baseline database: one owner, one standard product, the fresh
F001 sequence, no invoices. -/
def stBase : DBState := ⟨[ucOwner], [], [prodStd], [seqF001], [], [], 1⟩

/-- Baseline with the counter already at 7. -/
def stSeq7 : DBState := ⟨[ucOwner], [], [prodStd], [seqF001at7], [], [], 1⟩

/-- Database whose only matching sequence is inactive. -/
def stInactive : DBState := ⟨[ucOwner], [], [prodStd], [seqInactive], [], [], 1⟩

/-- Database with no sequence row at all. -/
def stNoSeq : DBState := ⟨[ucOwner], [], [prodStd], [], [], [], 1⟩

/-- Database owning only the foreign (company-2) product and no
customer rows whatsoever. -/
def stForeign : DBState := ⟨[ucOwner], [], [prodForeign], [seqF001], [], [], 1⟩

/-- Database with the zero-rate product. -/
def stZeroRate : DBState := ⟨[ucOwner], [], [prodZeroRate], [seqF001], [], [], 1⟩

/-- Database for `getNextNumber`: a viewer-role member and the counter
at 7; no products needed. -/
def stViewer : DBState := ⟨[ucViewer], [], [], [seqF001at7], [], [], 1⟩

/-- A benign request: customer 5, one line of 2 units at 100. -/
def reqBase : CreateInvoiceRequest :=
  ⟨1, 1, 5, "invoice", "F001", none, none, some "2025-08-02", none, none, [⟨1, 2, 100, none⟩]⟩

/-- Request whose second line references the unknown product 99. -/
def reqBadSecondLine : CreateInvoiceRequest :=
  { reqBase with items := [⟨1, 2, 100, none⟩, ⟨99, 1, 50, none⟩] }

/-- Request with two lines of one unit at 0.25 each. -/
def reqQuarter : CreateInvoiceRequest :=
  { reqBase with items := [⟨1, 1, 1 / 4, none⟩, ⟨1, 1, 1 / 4, none⟩] }

/-- Request with a single line of quantity -5. -/
def reqNegQty : CreateInvoiceRequest :=
  { reqBase with items := [⟨1, -5, 100, none⟩] }

/-- Request referencing the company-2 product from company 1. -/
def reqForeign : CreateInvoiceRequest :=
  { reqBase with items := [⟨3, 1, 100, none⟩] }

/-- Request referencing the zero-rate product. -/
def reqZeroRate : CreateInvoiceRequest :=
  { reqBase with items := [⟨2, 1, 100, none⟩] }

/-- A committed invoice of company 1 with tuple
(1, invoice, F001, 1) and number XF001-00000001 (issued while the
sequence row carried prefix X). -/
def invTupleA : Invoice :=
  ⟨1, 1, 5, "XF001-00000001", "F001", 1, "invoice", "PEN", 1, some "2025-08-01", none,
    100, 18, 0, 118, "draft", none, 1⟩

/-- A second committed invoice of company 1 with the same tuple
(1, invoice, F001, 1) but number F001-00000001. -/
def invTupleB : Invoice :=
  ⟨2, 1, 5, "F001-00000001", "F001", 1, "invoice", "PEN", 1, some "2025-08-02", none,
    100, 18, 0, 118, "draft", none, 1⟩

/-!
Helper lemmas about `createInvoice`, `processItems` and the allocation
model; the claim theorems follow them.
-/

/-- Every run of `createInvoice` either succeeds or leaves the database
exactly as it was: each failure branch of the source rolls the enclosing
transaction back. -/
theorem createInvoice_cases (st : DBState) (req : CreateInvoiceRequest) (f : Faults) :
    (createInvoice st req f).fst.isCreated = true ∨ (createInvoice st req f).snd = st := by
  unfold createInvoice
  split
  · right; rfl
  · split
    · right; rfl
    · split
      · right; rfl
      · split
        · right; rfl
        · split
          · right; rfl
          · split
            · right; rfl
            · split
              · right; rfl
              · split
                · right; rfl
                · left; rfl

/-- Characterization of a fault-free successful run of `createInvoice`
in terms of the found sequence and the processed lines. -/
theorem createInvoice_success_eq (st : DBState) (req : CreateInvoiceRequest)
    (seq : DocumentSequence) (ps : List InvoiceItem) (uc : UserCompany)
    (hrole : st.userCompanies.find? (roleMatch req.userId req.companyId) = some uc)
    (hmf : hasMissingFields req = false)
    (hseq : st.sequences.find? (seqMatch req.companyId req.document_type req.series) = some seq)
    (hps : processItems st.products req.items = .ok ps)
    (hdup : dupNumberClash st.invoices req.companyId
        (formatNumber seq.pre req.series (seq.current_number + 1) seq.min_digits seq.suf) = false) :
    createInvoice st req noFaults =
      (.created (issuedInvoice st.nextInvoiceId req seq ps) (issuedLines st.nextInvoiceId ps),
        issuedState st req seq ps) := by
  unfold createInvoice
  rw [hrole, hmf, hseq, hps]
  simp [noFaults, hdup]

/-- Conversely, any successful run of `createInvoice` is built from a
found sequence and successfully processed lines. -/
theorem createInvoice_created_shape (st : DBState) (req : CreateInvoiceRequest) (f : Faults)
    (inv : Invoice) (lines : List InvoiceItem)
    (h : (createInvoice st req f).fst = .created inv lines) :
    ∃ seq ps,
      st.sequences.find? (seqMatch req.companyId req.document_type req.series) = some seq ∧
      processItems st.products req.items = .ok ps ∧
      inv = issuedInvoice st.nextInvoiceId req seq ps ∧
      lines = issuedLines st.nextInvoiceId ps ∧
      (createInvoice st req f).snd = issuedState st req seq ps ∧
      dupNumberClash st.invoices req.companyId
        (formatNumber seq.pre req.series (seq.current_number + 1)
          seq.min_digits seq.suf) = false := by
  unfold createInvoice at h ⊢
  split at h <;> try simp_all
  split at h <;> try simp_all
  split at h <;> try simp_all
  split at h <;> try simp_all
  split at h <;> try simp_all
  split at h <;> try simp_all
  split at h <;> try simp_all
  split at h <;> simp_all

/-- Every line produced by the item loop carries the exact (unrounded)
arithmetic of the source: `tax = base * rate / 100`,
`total = base + tax`. -/
theorem processItems_ok_spec (products : List Product) :
    ∀ (items : List ItemRequest) (ps : List InvoiceItem),
      processItems products items = .ok ps →
      ∀ li ∈ ps, li.tax_amount = li.subtotal * (li.tax_rate / 100) ∧
        li.total_amount = li.subtotal + li.tax_amount := by
  intro items
  induction items with
  | nil =>
    intro ps h
    simp only [processItems] at h
    cases h
    simp
  | cons it rest ih =>
    intro ps h
    unfold processItems at h
    split at h
    · cases h
    · split at h
      · cases h
      · cases h
        intro li hli
        rcases List.mem_cons.mp hli with rfl | hmem
        · exact ⟨rfl, rfl⟩
        · exact ih _ (by assumption) li hmem

/-- The item loop succeeds exactly when `processItems` returns `.ok`. -/
theorem processOk_eq_true_iff (products : List Product) (items : List ItemRequest) :
    processOk products items = true ↔ ∃ ps, processItems products items = .ok ps := by
  unfold processOk
  split <;> simp_all

/-- If every requested product id occurs in the products table (under
any company), the item loop succeeds: the lookup is by primary key only. -/
theorem processOk_of_found (products : List Product) :
    ∀ items : List ItemRequest,
      (∀ it ∈ items, ∃ p ∈ products, (p.id == it.product_id) = true) →
      processOk products items = true := by
  intro items
  induction items with
  | nil => intro; simp [processOk, processItems]
  | cons it rest ih =>
    intro h
    have hfind : (products.find? (fun p => p.id == it.product_id)).isSome = true := by
      rw [List.find?_isSome]
      exact h it (by simp)
    obtain ⟨p, hp⟩ := Option.isSome_iff_exists.mp hfind
    obtain ⟨ps, hps⟩ := (processOk_eq_true_iff products rest).mp
      (ih (fun x hx => h x (by simp [hx])))
    unfold processOk processItems
    rw [hp, hps]

/-- Re-targeting lines at the new header id changes no monetary field. -/
theorem issuedLines_subtotals (n : Nat) (ps : List InvoiceItem) :
    (issuedLines n ps).map (·.subtotal) = ps.map (·.subtotal) := by
  unfold issuedLines
  rw [List.map_map]
  rfl

/-- Re-targeting lines at the new header id changes no tax field. -/
theorem issuedLines_taxes (n : Nat) (ps : List InvoiceItem) :
    (issuedLines n ps).map (·.tax_amount) = ps.map (·.tax_amount) := by
  unfold issuedLines
  rw [List.map_map]
  rfl

/-- Members of the inserted line list come from the processed lines. -/
theorem mem_issuedLines {n : Nat} {ps : List InvoiceItem} {li : InvoiceItem}
    (h : li ∈ issuedLines n ps) : ∃ p ∈ ps, li = { p with invoice_id := n } := by
  unfold issuedLines at h
  rcases List.mem_map.mp h with ⟨p, hp, rfl⟩
  exact ⟨p, hp, rfl⟩

/-- Membership in the gapless descending range. -/
theorem mem_descFrom {n0 x : Nat} : ∀ {k : Nat}, x ∈ descFrom n0 k ↔ n0 < x ∧ x ≤ n0 + k := by
  intro k
  induction k with
  | zero => simp [descFrom]
  | succ k ih =>
    simp only [descFrom, List.mem_cons, ih]
    omega

/-- The gapless descending range has no duplicates. -/
theorem descFrom_nodup {n0 : Nat} : ∀ {k : Nat}, (descFrom n0 k).Nodup := by
  intro k
  induction k with
  | zero => simp [descFrom]
  | succ k ih =>
    refine List.nodup_cons.mpr ⟨?_, ih⟩
    rw [mem_descFrom]
    omega

/-- Each step of the allocation model preserves the invariant. -/
theorem allocStep_inv {T : Type} [DecidableEq T] {n0 : Nat} {s : AllocState T}
    (h : AllocInv n0 s) (e : AllocEvent T) : AllocInv n0 (allocStep s e) := by
  obtain ⟨h1, h2, h3⟩ := h
  cases e with
  | readSeq t =>
    rcases hp : s.phase t with _ | v | c | _ <;> simp only [allocStep, hp]
    · refine ⟨h1, h2, ?_⟩
      intro u v hu
      simp only at hu
      by_cases hut : u = t
      · subst hut
        rw [if_pos rfl] at hu
        cases hu
        exact ⟨h1, le_refl _⟩
      · rw [if_neg hut] at hu
        exact h3 u v hu
    · exact ⟨h1, h2, h3⟩
    · exact ⟨h1, h2, h3⟩
    · exact ⟨h1, h2, h3⟩
  | commitTx t =>
    rcases hp : s.phase t with _ | v | c | _ <;> simp only [allocStep, hp]
    · exact ⟨h1, h2, h3⟩
    · obtain ⟨hv1, hv2⟩ := h3 t v hp
      by_cases hmem : v + 1 ∈ s.committedCorrelatives
      · rw [if_pos hmem]
        refine ⟨h1, h2, ?_⟩
        intro u v' hu
        simp only at hu
        by_cases hut : u = t
        · subst hut; rw [if_pos rfl] at hu; cases hu
        · rw [if_neg hut] at hu; exact h3 u v' hu
      · rw [if_neg hmem]
        rw [h2, mem_descFrom] at hmem
        have hvc : v = s.currentNumber := by omega
        refine ⟨?_, ?_, ?_⟩
        · show n0 ≤ v + 1
          omega
        · show (v + 1) :: s.committedCorrelatives = descFrom n0 (v + 1 - n0)
          have hk : v + 1 - n0 = (s.currentNumber - n0) + 1 := by omega
          rw [hk, h2]
          simp only [descFrom]
          congr 1
          omega
        · intro u v' hu
          simp only at hu
          by_cases hut : u = t
          · subst hut; rw [if_pos rfl] at hu; cases hu
          · rw [if_neg hut] at hu
            obtain ⟨a, b⟩ := h3 u v' hu
            refine ⟨a, ?_⟩
            show v' ≤ v + 1
            omega
    · exact ⟨h1, h2, h3⟩
    · exact ⟨h1, h2, h3⟩

/-- Running any schedule preserves the invariant. -/
theorem allocRun_inv {T : Type} [DecidableEq T] {n0 : Nat} :
    ∀ (es : List (AllocEvent T)) (s : AllocState T),
      AllocInv n0 s → AllocInv n0 (allocRun s es) := by
  intro es
  induction es with
  | nil => intro s h; exact h
  | cons e rest ih => intro s h; exact ih _ (allocStep_inv h e)

/-- The initial state satisfies the invariant. -/
theorem allocInit_inv (T : Type) (n0 : Nat) : AllocInv n0 (allocInit T n0) := by
  refine ⟨le_refl _, ?_, ?_⟩
  · simp [allocInit, descFrom]
  · intro t v hu
    simp [allocInit] at hu

/-- A result is created exactly when it is the `.created` constructor. -/
theorem CIResult.isCreated_iff (r : CIResult) :
    r.isCreated = true ↔ ∃ inv lines, r = .created inv lines := by
  cases r <;> simp [CIResult.isCreated]

/-- Claim C1 (confirmed): every issuance call that fails — including after
the sequence row has been read and the correlative computed, for example
because a product lookup fails or an insert raises — leaves
`current_number` equal to its value before the attempt and persists no
invoice header or line: the whole unit is rolled back all-or-nothing. -/
theorem createInvoice_failure_preserves_state (st : DBState) (req : CreateInvoiceRequest)
    (f : Faults) (h : (createInvoice st req f).fst.isCreated = false) :
    (createInvoice st req f).snd = st := by
  rcases createInvoice_cases st req f with hc | hc
  · rw [hc] at h; cases h
  · exact hc

theorem createInvoice_failure_preserves_state_witness :
    (createInvoice stSeq7 reqBadSecondLine noFaults).fst.isCreated = false ∧
    (createInvoice stSeq7 reqBadSecondLine noFaults).snd = stSeq7 :=
  ⟨by decide,
    createInvoice_failure_preserves_state stSeq7 reqBadSecondLine noFaults (by decide)⟩

/-- Claim C2 (amended): in the allocation model, over every interleaved
schedule of any set of issuance transactions on one sequence key, the
committed correlatives are exactly the gapless range
current+1 .. current+K for K successful commits, with no duplicates.
The linearizable-read part of the original claim is refuted by
`alloc_concurrent_same_observation`: distinctness holds only because the
unique `(company_id, invoice_number)` index aborts the second conflicting
commit, not because the read is exclusive. -/
theorem alloc_committed_distinct_gapless (T : Type) [DecidableEq T] (n0 : Nat)
    (es : List (AllocEvent T)) :
    (allocRun (allocInit T n0) es).committedCorrelatives =
      descFrom n0 ((allocRun (allocInit T n0) es).currentNumber - n0) ∧
    n0 ≤ (allocRun (allocInit T n0) es).currentNumber ∧
    (allocRun (allocInit T n0) es).committedCorrelatives.Nodup := by
  obtain ⟨h1, h2, _⟩ := allocRun_inv es (allocInit T n0) (allocInit_inv T n0)
  exact ⟨h2, h1, h2 ▸ descFrom_nodup⟩

/-- Claim C2 counterexample: the sequence read takes no lock, so the
schedule read-read-commit-commit is admissible and both transactions
observe `current_number = 0` — two concurrent callers observe the same
value, contradicting per-key linearizable allocation; the second
committer is then aborted by the duplicate-number error. -/
theorem alloc_concurrent_same_observation :
    ((allocRun (allocInit Bool 0) [.readSeq false, .readSeq true]).phase false =
        .readDone 0 ∧
      (allocRun (allocInit Bool 0) [.readSeq false, .readSeq true]).phase true =
        .readDone 0) ∧
    (allocRun (allocInit Bool 0)
        [.readSeq false, .readSeq true, .commitTx false, .commitTx true]).phase false =
      .committed 1 ∧
    (allocRun (allocInit Bool 0)
        [.readSeq false, .readSeq true, .commitTx false, .commitTx true]).phase true =
      .aborted :=
  ⟨⟨rfl, rfl⟩, rfl, rfl⟩

/-- Claim C8 (confirmed): for every successful allocation the formatted
invoice number is prefix + series + "-" + zero-padded correlative
(width `min_digits`) + suffix, with correlative `current_number + 1`;
the witness instantiates the spec's example, prefix="", series=F001,
min_digits=8, current_number=0 giving correlative 1 and
"F001-00000001". -/
theorem createInvoice_number_format (st : DBState) (req : CreateInvoiceRequest)
    (f : Faults) (seq : DocumentSequence)
    (hc : (createInvoice st req f).fst.isCreated = true)
    (hseq : st.sequences.find? (seqMatch req.companyId req.document_type req.series) = some seq) :
    (createInvoice st req f).fst.createdNumber =
      seq.pre ++ req.series ++ "-" ++
        padStart (toString (seq.current_number + 1)) seq.min_digits ++ seq.suf ∧
    (createInvoice st req f).fst.createdCorrelative = seq.current_number + 1 := by
  obtain ⟨inv, lines, hr⟩ := (CIResult.isCreated_iff _).mp hc
  obtain ⟨seq', ps, hseq', hps, hinv, hlines, hsnd, hdup⟩ :=
    createInvoice_created_shape st req f inv lines hr
  rw [hseq] at hseq'
  cases hseq'
  rw [hr]
  subst hinv
  exact ⟨rfl, rfl⟩

theorem createInvoice_number_format_witness :
    (createInvoice stBase reqBase noFaults).fst.isCreated = true ∧
    stBase.sequences.find? (seqMatch reqBase.companyId reqBase.document_type reqBase.series) =
      some seqF001 ∧
    (createInvoice stBase reqBase noFaults).fst.createdNumber = "F001-00000001" ∧
    (createInvoice stBase reqBase noFaults).fst.createdCorrelative = 1 :=
  ⟨by decide, by decide,
    (createInvoice_number_format stBase reqBase noFaults seqF001
      (by decide) (by decide)).1.trans (by decide),
    (createInvoice_number_format stBase reqBase noFaults seqF001
      (by decide) (by decide)).2⟩

/-- Claim C9 (confirmed): `getNextNumber`, called by any member of the
company (any role) on an existing active sequence, returns the formatted
next number and advances the sequence's `current_number` by 1 directly
in the durable state — it runs in no transaction, so the increment can
never be rolled back — while creating no invoice and no line, so the
consumed correlative becomes a numbering gap. -/
theorem getNextNumber_burns_correlative (st : DBState) (u c : Nat) (dt sr : String)
    (uc : UserCompany) (seq : DocumentSequence)
    (hm : st.userCompanies.find? (memberMatch u c) = some uc)
    (hs : st.sequences.find? (seqMatch c dt sr) = some seq) :
    (getNextNumber st u c dt sr).fst =
      .ok (seq.current_number + 1)
        (formatNumber seq.pre seq.series (seq.current_number + 1) seq.min_digits seq.suf) ∧
    (getNextNumber st u c dt sr).snd.invoices = st.invoices ∧
    (getNextNumber st u c dt sr).snd.invoiceItems = st.invoiceItems ∧
    (∀ s ∈ (getNextNumber st u c dt sr).snd.sequences, s.id = seq.id →
      s.current_number = seq.current_number + 1) ∧
    (∀ s ∈ (getNextNumber st u c dt sr).snd.sequences, s.id ≠ seq.id →
      s ∈ st.sequences) := by
  unfold getNextNumber
  rw [hm, hs]
  refine ⟨rfl, rfl, rfl, ?_, ?_⟩
  · intro s hsin hid
    simp only at hsin
    rcases List.mem_map.mp hsin with ⟨s0, hs0, rfl⟩
    by_cases h0 : (s0.id == seq.id) = true
    · simp [h0]
    · simp only [if_neg h0] at hid ⊢
      exact absurd (beq_iff_eq.mpr hid) h0
  · intro s hsin hne
    simp only at hsin
    rcases List.mem_map.mp hsin with ⟨s0, hs0, rfl⟩
    by_cases h0 : (s0.id == seq.id) = true
    · simp only [if_pos h0] at hne
      exact absurd (beq_iff_eq.mp h0) hne
    · simp only [if_neg h0]
      exact hs0

theorem getNextNumber_burns_correlative_witness :
    stViewer.userCompanies.find? (memberMatch 7 1) = some ucViewer ∧
    stViewer.sequences.find? (seqMatch 1 "invoice" "F001") = some seqF001at7 ∧
    (getNextNumber stViewer 7 1 "invoice" "F001").fst = .ok 8 "F001-00000008" ∧
    (getNextNumber stViewer 7 1 "invoice" "F001").snd.invoices = stViewer.invoices :=
  ⟨by decide, by decide,
    (getNextNumber_burns_correlative stViewer 7 1 "invoice" "F001" ucViewer seqF001at7
      (by decide) (by decide)).1.trans (by decide),
    (getNextNumber_burns_correlative stViewer 7 1 "invoice" "F001" ucViewer seqF001at7
      (by decide) (by decide)).2.1⟩

/-- Claim C10 (confirmed): the tax rate snapshotted onto a line is
`parseFloat(product.igv_rate || 18)`: when the product's `igv_rate` is
null, absent, or the number 0, the line's frozen rate is 18 and the tax
charged is 18% of the base — a zero-rate product is charged 18%, not
0%. -/
theorem tax_rate_default_on_falsy_igv (product : Product) (item : ItemRequest)
    (h : product.igv_rate = none ∨ product.igv_rate = some 0) :
    (processItem product item).tax_rate = 18 ∧
    (processItem product item).tax_amount = (processItem product item).subtotal * (18 / 100) := by
  have hj : jsOr product.igv_rate 18 = 18 := by
    rcases h with h | h <;> simp [jsOr, h]
  constructor
  · show jsOr product.igv_rate 18 = 18
    exact hj
  · show (item.quantity * item.unit_price -
        item.quantity * item.unit_price * (jsOr item.discount_rate 0 / 100)) *
          (jsOr product.igv_rate 18 / 100) =
      (item.quantity * item.unit_price -
        item.quantity * item.unit_price * (jsOr item.discount_rate 0 / 100)) * (18 / 100)
    rw [hj]

theorem tax_rate_default_on_falsy_igv_witness :
    (prodZeroRate.igv_rate = none ∨ prodZeroRate.igv_rate = some 0) ∧
    (processItem prodZeroRate ⟨2, 1, 100, none⟩).tax_rate = 18 ∧
    (processItem prodZeroRate ⟨2, 1, 100, none⟩).tax_amount =
      (processItem prodZeroRate ⟨2, 1, 100, none⟩).subtotal * (18 / 100) :=
  ⟨Or.inr rfl,
    (tax_rate_default_on_falsy_igv prodZeroRate ⟨2, 1, 100, none⟩ (Or.inr rfl)).1,
    (tax_rate_default_on_falsy_igv prodZeroRate ⟨2, 1, 100, none⟩ (Or.inr rfl)).2⟩

/-- Claim C3 counterexample: issuing two lines of one unit at 0.25 with
18% tax persists line taxes of 0.045 each (9/200), though round-half-up
at 2 decimals gives 0.05 (1/20) — so no per-line rounding happens — and
the invoice-level tax is 0.09 (9/100), not the 0.10 sum of the
per-line rounded values — so the aggregate is not a sum of
already-rounded values. -/
theorem createInvoice_lines_not_rounded :
    (createInvoice stBase reqQuarter noFaults).fst.createdLines.map (·.tax_amount) =
      [9 / 200, 9 / 200] ∧
    (createInvoice stBase reqQuarter noFaults).fst.createdTax = 9 / 100 ∧
    round2 (9 / 200) = 1 / 20 ∧
    (9 / 200 : ℚ) ≠ 1 / 20 ∧
    (createInvoice stBase reqQuarter noFaults).fst.createdTax ≠
      round2 (9 / 200) + round2 (9 / 200) := by
  have hps : processItems stBase.products reqQuarter.items =
      .ok [processItem prodStd ⟨1, 1, 1 / 4, none⟩, processItem prodStd ⟨1, 1, 1 / 4, none⟩] :=
    rfl
  have hrun := createInvoice_success_eq stBase reqQuarter seqF001
    [processItem prodStd ⟨1, 1, 1 / 4, none⟩, processItem prodStd ⟨1, 1, 1 / 4, none⟩]
    ucOwner (by decide) (by decide) (by decide) hps (by decide)
  have htax : (processItem prodStd ⟨1, 1, 1 / 4, none⟩).tax_amount = 9 / 200 := by
    norm_num [processItem, jsOr, prodStd]
  have hr2 : round2 (9 / 200) = 1 / 20 := by
    have h5 : (9 / 200 : ℚ) * 100 + 1 / 2 = 5 := by norm_num
    simp only [round2, h5]
    norm_num
  refine ⟨?_, ?_, hr2, by norm_num, ?_⟩
  · rw [hrun]
    show (issuedLines stBase.nextInvoiceId _).map (·.tax_amount) = _
    rw [issuedLines_taxes]
    simp only [List.map_cons, List.map_nil]
    rw [htax]
  · rw [hrun]
    show (List.map (·.tax_amount)
        [processItem prodStd ⟨1, 1, 1 / 4, none⟩, processItem prodStd ⟨1, 1, 1 / 4, none⟩]).sum =
      9 / 100
    simp only [List.map_cons, List.map_nil, List.sum_cons, List.sum_nil]
    rw [htax]
    norm_num
  · rw [hrun, hr2]
    show (List.map (·.tax_amount)
        [processItem prodStd ⟨1, 1, 1 / 4, none⟩, processItem prodStd ⟨1, 1, 1 / 4, none⟩]).sum ≠
      1 / 20 + 1 / 20
    simp only [List.map_cons, List.map_nil, List.sum_cons, List.sum_nil]
    rw [htax]
    norm_num

/-- Claim C3 (amended): the issuance code applies no rounding at all.
Each persisted line carries the exact values
`tax = base * rate / 100` and `total = base + tax`, and the invoice
header's subtotal, tax and total are the exact arithmetic sums of those
unrounded per-line values (total = subtotal + tax). -/
theorem createInvoice_totals_sums_of_unrounded (st : DBState) (req : CreateInvoiceRequest)
    (f : Faults) (hc : (createInvoice st req f).fst.isCreated = true) :
    (createInvoice st req f).fst.createdSubtotal =
      ((createInvoice st req f).fst.createdLines.map (·.subtotal)).sum ∧
    (createInvoice st req f).fst.createdTax =
      ((createInvoice st req f).fst.createdLines.map (·.tax_amount)).sum ∧
    (createInvoice st req f).fst.createdTotal =
      (createInvoice st req f).fst.createdSubtotal + (createInvoice st req f).fst.createdTax ∧
    ∀ li ∈ (createInvoice st req f).fst.createdLines,
      li.tax_amount = li.subtotal * (li.tax_rate / 100) ∧
      li.total_amount = li.subtotal + li.tax_amount := by
  obtain ⟨inv, lines, hr⟩ := (CIResult.isCreated_iff _).mp hc
  obtain ⟨seq, ps, hseq, hps, hinv, hlines, hsnd, hdup⟩ :=
    createInvoice_created_shape st req f inv lines hr
  rw [hr]
  subst hinv hlines
  refine ⟨?_, ?_, rfl, ?_⟩
  · show (ps.map (·.subtotal)).sum = _
    rw [CIResult.createdLines, issuedLines_subtotals]
  · show (ps.map (·.tax_amount)).sum = _
    rw [CIResult.createdLines, issuedLines_taxes]
  · intro li hli
    obtain ⟨p, hp, rfl⟩ := mem_issuedLines hli
    exact processItems_ok_spec st.products req.items ps hps p hp

theorem createInvoice_totals_sums_of_unrounded_witness :
    (createInvoice stBase reqBase noFaults).fst.isCreated = true ∧
    ((createInvoice stBase reqBase noFaults).fst.createdSubtotal =
      ((createInvoice stBase reqBase noFaults).fst.createdLines.map (·.subtotal)).sum ∧
    (createInvoice stBase reqBase noFaults).fst.createdTax =
      ((createInvoice stBase reqBase noFaults).fst.createdLines.map (·.tax_amount)).sum ∧
    (createInvoice stBase reqBase noFaults).fst.createdTotal =
      (createInvoice stBase reqBase noFaults).fst.createdSubtotal +
        (createInvoice stBase reqBase noFaults).fst.createdTax ∧
    ∀ li ∈ (createInvoice stBase reqBase noFaults).fst.createdLines,
      li.tax_amount = li.subtotal * (li.tax_rate / 100) ∧
      li.total_amount = li.subtotal + li.tax_amount) :=
  ⟨by decide, createInvoice_totals_sums_of_unrounded stBase reqBase noFaults (by decide)⟩

/-- Claim C4 counterexample: the invoices table's only unique index is
on `(company_id, invoice_number)` — no unique index involves the tuple
`(company, document_type, series, correlative)` — and two distinct
committed invoices sharing that whole tuple (differing only in the
prefix baked into `invoice_number`) satisfy every persisted constraint. -/
theorem invoices_unique_index_not_on_tuple :
    (invoicesTableIndexes.filter (·.unique)).map (·.fields) =
      [["company_id", "invoice_number"]] ∧
    invoicesTableIndexes.all (fun i =>
      !(i.unique && i.fields == ["company_id", "document_type", "series", "correlative"])) =
      true ∧
    noDupCompanyNumber [invTupleA, invTupleB] = true ∧
    invTupleA.company_id = invTupleB.company_id ∧
    invTupleA.document_type = invTupleB.document_type ∧
    invTupleA.series = invTupleB.series ∧
    invTupleA.correlative = invTupleB.correlative ∧
    invTupleA ≠ invTupleB :=
  ⟨by decide, by decide, by decide, rfl, rfl, rfl, rfl, by decide⟩

/-- Claim C4 (amended): the uniqueness the persisted schema enforces is
`(company_id, invoice_number)`, and `createInvoice` preserves it: from
any state whose invoices satisfy it, the state after any run still
satisfies it (the duplicate-key guard rejects a clashing insert). -/
theorem createInvoice_preserves_company_number_uniqueness (st : DBState)
    (req : CreateInvoiceRequest) (f : Faults)
    (h : noDupCompanyNumber st.invoices = true) :
    noDupCompanyNumber (createInvoice st req f).snd.invoices = true := by
  by_cases hc : (createInvoice st req f).fst.isCreated = true
  · obtain ⟨inv, lines, hr⟩ := (CIResult.isCreated_iff _).mp hc
    obtain ⟨seq, ps, hseq, hps, hinv, hlines, hsnd, hdup⟩ :=
      createInvoice_created_shape st req f inv lines hr
    rw [hsnd]
    show (!(dupNumberClash st.invoices req.companyId
        (formatNumber seq.pre req.series (seq.current_number + 1) seq.min_digits seq.suf)) &&
      noDupCompanyNumber st.invoices) = true
    rw [hdup, h]
    rfl
  · rcases createInvoice_cases st req f with hc' | hc'
    · exact absurd hc' hc
    · rw [hc']
      exact h

theorem createInvoice_preserves_company_number_uniqueness_witness :
    noDupCompanyNumber stBase.invoices = true ∧
    noDupCompanyNumber (createInvoice stBase reqBase noFaults).snd.invoices = true :=
  ⟨by decide,
    createInvoice_preserves_company_number_uniqueness stBase reqBase noFaults (by decide)⟩

/-- Claim C5 counterexample: a request whose only line has quantity -5
is not rejected: `createInvoice` succeeds, persists the invoice, and
advances the sequence counter — contradicting the claimed
`InvalidLineInput`/`ValidationError` with no side effects. -/
theorem createInvoice_accepts_nonpositive_quantity :
    reqNegQty.items.any (fun it => decide (it.quantity ≤ 0)) = true ∧
    (createInvoice stBase reqNegQty noFaults).fst.isCreated = true ∧
    (createInvoice stBase reqNegQty noFaults).snd.invoices.length =
      stBase.invoices.length + 1 ∧
    (∀ s ∈ (createInvoice stBase reqNegQty noFaults).snd.sequences,
      s.current_number = 1) :=
  ⟨by decide, by decide, by decide, by decide⟩

/-- Claim C5 (amended): the only request validation is field presence
(customer id, document type, series, issue date, non-empty items);
quantities, unit prices and rates are never checked, so a request
containing a line with quantity ≤ 0 still issues successfully, persists
the invoice and advances the counter. -/
theorem createInvoice_checks_presence_only (st : DBState) (req : CreateInvoiceRequest)
    (f : Faults) (seq : DocumentSequence) (uc : UserCompany)
    (hrole : st.userCompanies.find? (roleMatch req.userId req.companyId) = some uc)
    (hmf : hasMissingFields req = false)
    (hseq : st.sequences.find? (seqMatch req.companyId req.document_type req.series) = some seq)
    (hok : processOk st.products req.items = true)
    (hdup : dupNumberClash st.invoices req.companyId
        (formatNumber seq.pre req.series (seq.current_number + 1) seq.min_digits seq.suf) = false)
    (hbad : req.items.any (fun it => decide (it.quantity ≤ 0)) = true)
    (hf : f = noFaults) :
    (createInvoice st req f).fst.isCreated = true ∧
    (createInvoice st req f).snd.invoices.length = st.invoices.length + 1 ∧
    ∀ s ∈ (createInvoice st req f).snd.sequences, s.id = seq.id →
      s.current_number = seq.current_number + 1 := by
  subst hf
  obtain ⟨ps, hps⟩ := (processOk_eq_true_iff _ _).mp hok
  have hrun := createInvoice_success_eq st req seq ps uc hrole hmf hseq hps hdup
  rw [hrun]
  refine ⟨rfl, rfl, ?_⟩
  intro s hsin hid
  simp only [issuedState] at hsin
  rcases List.mem_map.mp hsin with ⟨s0, hs0, rfl⟩
  by_cases h0 : (s0.id == seq.id) = true
  · simp [h0]
  · simp only [if_neg h0] at hid ⊢
    exact absurd (beq_iff_eq.mpr hid) h0

theorem createInvoice_checks_presence_only_witness :
    stBase.userCompanies.find? (roleMatch reqNegQty.userId reqNegQty.companyId) = some ucOwner ∧
    hasMissingFields reqNegQty = false ∧
    stBase.sequences.find?
      (seqMatch reqNegQty.companyId reqNegQty.document_type reqNegQty.series) = some seqF001 ∧
    processOk stBase.products reqNegQty.items = true ∧
    dupNumberClash stBase.invoices reqNegQty.companyId
      (formatNumber seqF001.pre reqNegQty.series (seqF001.current_number + 1)
        seqF001.min_digits seqF001.suf) = false ∧
    reqNegQty.items.any (fun it => decide (it.quantity ≤ 0)) = true ∧
    ((createInvoice stBase reqNegQty noFaults).fst.isCreated = true ∧
      (createInvoice stBase reqNegQty noFaults).snd.invoices.length =
        stBase.invoices.length + 1 ∧
      ∀ s ∈ (createInvoice stBase reqNegQty noFaults).snd.sequences, s.id = seqF001.id →
        s.current_number = seqF001.current_number + 1) :=
  ⟨by decide, by decide, by decide, by decide, by decide, by decide,
    createInvoice_checks_presence_only stBase reqNegQty noFaults seqF001 ucOwner
      (by decide) (by decide) (by decide) (by decide) (by decide) (by decide) rfl⟩

/-- Claim C6 counterexample: from a database whose only product belongs
to company 2 and which contains no customer at all, an issuance request
for company 1 referencing that product succeeds and persists an invoice
— not the claimed NotFound rejection. -/
theorem createInvoice_accepts_foreign_product :
    prodForeign.company_id ≠ reqForeign.companyId ∧
    stForeign.products = [prodForeign] ∧
    stForeign.customers = [] ∧
    (createInvoice stForeign reqForeign noFaults).fst.isCreated = true ∧
    (createInvoice stForeign reqForeign noFaults).snd.invoices.length = 1 :=
  ⟨by decide, rfl, rfl, by decide, by decide⟩

/-- Claim C6 (amended): before issuing, the code checks only that the
caller holds an allowed role in the company and that required fields are
present; the customer id is never validated (no customer row need
exist) and products are resolved by primary key without tenant scoping,
so a request referencing only other tenants' products succeeds. -/
theorem createInvoice_no_tenant_scoping (st : DBState) (req : CreateInvoiceRequest)
    (f : Faults) (seq : DocumentSequence) (uc : UserCompany)
    (hrole : st.userCompanies.find? (roleMatch req.userId req.companyId) = some uc)
    (hmf : hasMissingFields req = false)
    (hseq : st.sequences.find? (seqMatch req.companyId req.document_type req.series) = some seq)
    (hcust : st.customers = [])
    (hprod : ∀ it ∈ req.items, ∃ p ∈ st.products,
      (p.id == it.product_id) = true ∧ p.company_id ≠ req.companyId)
    (hdup : dupNumberClash st.invoices req.companyId
        (formatNumber seq.pre req.series (seq.current_number + 1) seq.min_digits seq.suf) = false)
    (hf : f = noFaults) :
    (createInvoice st req f).fst.isCreated = true ∧
    (createInvoice st req f).snd.invoices.length = st.invoices.length + 1 := by
  subst hf
  have hok := processOk_of_found st.products req.items (fun it hit => by
    obtain ⟨p, hp, h1, _⟩ := hprod it hit
    exact ⟨p, hp, h1⟩)
  obtain ⟨ps, hps⟩ := (processOk_eq_true_iff _ _).mp hok
  rw [createInvoice_success_eq st req seq ps uc hrole hmf hseq hps hdup]
  exact ⟨rfl, rfl⟩

theorem createInvoice_no_tenant_scoping_witness :
    stForeign.userCompanies.find? (roleMatch reqForeign.userId reqForeign.companyId) =
      some ucOwner ∧
    hasMissingFields reqForeign = false ∧
    stForeign.sequences.find?
      (seqMatch reqForeign.companyId reqForeign.document_type reqForeign.series) =
      some seqF001 ∧
    stForeign.customers = [] ∧
    (∀ it ∈ reqForeign.items, ∃ p ∈ stForeign.products,
      (p.id == it.product_id) = true ∧ p.company_id ≠ reqForeign.companyId) ∧
    dupNumberClash stForeign.invoices reqForeign.companyId
      (formatNumber seqF001.pre reqForeign.series (seqF001.current_number + 1)
        seqF001.min_digits seqF001.suf) = false ∧
    ((createInvoice stForeign reqForeign noFaults).fst.isCreated = true ∧
      (createInvoice stForeign reqForeign noFaults).snd.invoices.length =
        stForeign.invoices.length + 1) :=
  ⟨by decide, by decide, by decide, rfl, by decide, by decide,
    createInvoice_no_tenant_scoping stForeign reqForeign noFaults seqF001 ucOwner
      (by decide) (by decide) (by decide) rfl (by decide) (by decide) rfl⟩

/-- Claim C7 counterexample: an inactive sequence and a missing sequence
produce the very same error value (the source's 400 "no active
correlative" response) — there is no `SequenceInactiveError` distinct
from `SequenceNotFound`; the state is unchanged. -/
theorem inactive_and_missing_sequence_same_error :
    (∃ s ∈ stInactive.sequences, s.company_id = 1 ∧ s.document_type = "invoice" ∧
      s.series = "F001" ∧ s.is_active = false) ∧
    stNoSeq.sequences = [] ∧
    (createInvoice stInactive reqBase noFaults).fst = .noActiveSequence ∧
    (createInvoice stNoSeq reqBase noFaults).fst = .noActiveSequence ∧
    (createInvoice stInactive reqBase noFaults).fst =
      (createInvoice stNoSeq reqBase noFaults).fst ∧
    (createInvoice stInactive reqBase noFaults).snd = stInactive :=
  ⟨by decide, rfl, by decide, by decide, by decide, by decide⟩

/-- Claim C7 (amended): allocation against a series all of whose
matching sequence rows are inactive always fails and never mutates
`current_number`, but with the same generic no-active-sequence error
that a missing series produces, not a distinct error kind. -/
theorem createInvoice_inactive_sequence_rejected_unchanged (st : DBState)
    (req : CreateInvoiceRequest) (f : Faults) (uc : UserCompany)
    (hrole : st.userCompanies.find? (roleMatch req.userId req.companyId) = some uc)
    (hmf : hasMissingFields req = false)
    (hex : ∃ s ∈ st.sequences, s.company_id = req.companyId ∧
      s.document_type = req.document_type ∧ s.series = req.series ∧ s.is_active = false)
    (hall : ∀ s ∈ st.sequences, s.company_id = req.companyId →
      s.document_type = req.document_type → s.series = req.series → s.is_active = false) :
    createInvoice st req f = (.noActiveSequence, st) := by
  have hfind : st.sequences.find? (seqMatch req.companyId req.document_type req.series) =
      none := by
    rw [List.find?_eq_none]
    intro s hs hmatch
    unfold seqMatch at hmatch
    simp only [Bool.and_eq_true, beq_iff_eq] at hmatch
    obtain ⟨⟨⟨h1, h2⟩, h3⟩, h4⟩ := hmatch
    have := hall s hs h1 h2 h3
    rw [this] at h4
    cases h4
  unfold createInvoice
  rw [hrole, hmf, hfind]
  rfl

theorem createInvoice_inactive_sequence_rejected_unchanged_witness :
    stInactive.userCompanies.find? (roleMatch reqBase.userId reqBase.companyId) =
      some ucOwner ∧
    hasMissingFields reqBase = false ∧
    (∃ s ∈ stInactive.sequences, s.company_id = reqBase.companyId ∧
      s.document_type = reqBase.document_type ∧ s.series = reqBase.series ∧
      s.is_active = false) ∧
    (∀ s ∈ stInactive.sequences, s.company_id = reqBase.companyId →
      s.document_type = reqBase.document_type → s.series = reqBase.series →
      s.is_active = false) ∧
    createInvoice stInactive reqBase noFaults = (.noActiveSequence, stInactive) :=
  ⟨by decide, by decide, by decide, by decide,
    createInvoice_inactive_sequence_rejected_unchanged stInactive reqBase noFaults ucOwner
      (by decide) (by decide) (by decide) (by decide)⟩
